import Mathlib

/-!
Verification development for the batch transcription runner of
`transcribe.py` (repository `willgriff19/journal-transcriber`).

The program is a single sequential batch job (`main`): it opens a Google
Sheet, takes one full snapshot of all rows (`get_all_values`), loads a
persisted checkpoint (`load_progress`), and walks the rows after the
checkpoint.  For each configured (audio column, answer column) pair it
reads the cell's raw formula live from the sheet, classifies the cell as
pending when the formula contains `"HYPERLINK"` and the snapshot's answer
cell is empty, extracts a Drive file id with the regex
`d/([a-zA-Z0-9_-]+)/`, downloads, transcribes, writes the text back, and
accumulates statistics.  After each row it rewrites the checkpoint, and at
the end it sends one summary email.

The embedding below models the external collaborators (sheet open, live
formula reads, Drive download, Whisper transcription, cell writes) as
oracles in an `Env` record: each oracle returns either a value or the
message of the exception it raises.  The mutable pieces (the live sheet
and the progress file) form a `World` that a run transforms.  The run
itself is a pure function `mainRun : Env → World → RunResult` translated
line by line from `main` in `transcribe.py`; `RunResult` additionally
carries ghost logs (rows scanned, checkpoint writes, cell writes, email
count) and the message of an uncaught exception, so that control-flow
claims can be stated.  An uncaught exception makes the Python process
exit non-zero; every other path returns from `main` normally, so the
process exits 0 (`exitCode`).
-/

namespace Transcribe

/-- Run statistics accumulated in memory during one run: the `stats`
dictionary of `main` (lines 157-163 of `transcribe.py`). -/
structure Stats where
  total_processed : Nat
  successful : Nat
  failed : Nat
  errors : List String
  last_row : Int
deriving Repr, DecidableEq

/-- The statistics record at the start of a run: all counters zero,
no errors, `last_row = 0`. -/
def Stats.start : Stats :=
  { total_processed := 0, successful := 0, failed := 0, errors := [], last_row := 0 }

/-- `load_progress` of the source: the progress file is abstracted as
`none` (file absent) or `some n` (file holding the single JSON object
with key `last_processed_row` and value `n`).  A missing file defaults
to row 1. -/
def load_progress : Option Int → Int
  | some n => n
  | none => 1

/-- `save_progress` of the source: overwrite the progress file with the
JSON object holding `last_row` under the key `last_processed_row`. -/
def save_progress (last_row : Int) : Option Int := some last_row

/-- Python's substring test `pat in s`. -/
def strContains (s pat : String) : Bool :=
  s.data.tails.any (fun t => pat.data.isPrefixOf t)

/-- The character class of the regex `[a-zA-Z0-9_-]` (line 204). -/
def isIdChar (c : Char) : Bool := c.isAlphanum || c == '_' || c == '-'

/-- Match the regex `d/([a-zA-Z0-9_-]+)/` at the start of `cs`, returning
group 1.  The group is greedy and `/` is outside the class, so a match at
this position succeeds exactly when the literal `d/` is followed by a
nonempty maximal run of id characters whose next character is `/`. -/
def matchIdAt : List Char → Option String
  | 'd' :: '/' :: rest =>
    let tok := rest.takeWhile isIdChar
    if tok.length > 0 && ((rest.dropWhile isIdChar).head? == some '/') then
      some (String.mk tok)
    else none
  | _ => none

/-- Leftmost search, as `re.search`: try a match at every position from
the left. -/
def searchFileId : List Char → Option String
  | [] => none
  | c :: rest =>
    match matchIdAt (c :: rest) with
    | some tok => some tok
    | none => searchFileId rest

/-- `re.search(r'd/([a-zA-Z0-9_-]+)/', s)` with group 1 extracted
(line 204 of `transcribe.py`). -/
def extractFileId (s : String) : Option String := searchFileId s.data

/-- Read cell `i` (0-based) of a snapshot row: the source's
`row[i] if len(row) > i else ""` (lines 192-193). -/
def cellAt (row : List String) (i : Nat) : String := row.getD i ""

/-- The pending-classification condition of line 199:
`formula and "HYPERLINK" in formula and (answer_cell == "")`, for a
non-None formula value `f`. -/
def pendingCond (f answer_cell : String) : Bool :=
  (f != "") && strContains f "HYPERLINK" && (answer_cell == "")

/-- Whether an optional raw formula value (`none` models Python `None`)
contains the asset-link marker `"HYPERLINK"`. -/
def containsMarker : Option String → Bool
  | none => false
  | some f => strContains f "HYPERLINK"

/-- Record one soft failure into the statistics: increment `failed` and
append the entry `"Row <row_index>: <detail>"` (lines 206-208 and
231-235 both build their messages this way). -/
def recordFailure (stats : Stats) (row_index : Int) (detail : String) : Stats :=
  { stats with
      failed := stats.failed + 1,
      errors := stats.errors ++ ["Row " ++ toString row_index ++ ": " ++ detail] }

/-- Oracles for the external collaborators of one run.  `Except.error e`
models the collaborator raising an exception whose `str` is `e`.
`openErr` covers the whole fatal block of lines 166-171 (open by key,
worksheet, `get_all_values`); `formula` is the live
`sheet.cell(row, col, value_render_option='FORMULA').value` (line 196,
`none` = Python `None`); `fetch` is the Drive media download (lines
214-215); `transcribe` is the Whisper call (lines 220-224); `updateErr`
tells whether `sheet.update_cell(row, col, text)` raises (line 228),
`none` meaning the write succeeds. -/
structure Env where
  openErr : Option String
  colMap : List (Nat × Nat)
  formula : Int → Nat → Except String (Option String)
  fetch : String → Except String String
  transcribe : String → Except String String
  updateErr : Int → Nat → String → Option String

/-- The mutable state a run reads and transforms: the live sheet's
display values (row-major, 1-based indices in the API) and the progress
file. -/
structure World where
  sheet : List (List String)
  progress : Option Int
deriving Repr, DecidableEq

/-- Effect of a successful `update_cell(r, col, text)` on the live sheet:
1-based row `r` and column `col`; the row is padded with empty cells if
it is shorter than `col`.  A row index outside the sheet is left
unchanged (the API would raise there, which the `updateErr` oracle
already models). -/
def setCell (sheet : List (List String)) (r : Int) (col : Nat) (text : String) : List (List String) :=
  if 1 ≤ r then
    sheet.set (r.toNat - 1)
      ((sheet.getD (r.toNat - 1) [] ++ List.replicate (col - (sheet.getD (r.toNat - 1) []).length) "").set (col - 1) text)
  else sheet

/-- The state threaded through the per-pair inner loop: the statistics,
the live sheet, and the ghost log of successful cell writes. -/
structure PairSt where
  stats : Stats
  sheet : List (List String)
  writes : List (Int × Nat × String)
deriving Repr, DecidableEq

/-- One iteration of the inner loop of `main` (lines 188-235) for the
pair `p = (audio_col, answer_col)` on the snapshot row `row` with 1-based
index `rowIdx`.  Returns the new state and, in the second component, the
message of an uncaught exception: the live formula read of line 196 is
the only statement of the loop body outside the `try` block, so only its
failure escapes. -/
def processPair (env : Env) (row : List String) (rowIdx : Int) (p : Nat × Nat) (st : PairSt) :
    PairSt × Option String :=
  let answer_cell := cellAt row (p.2 - 1)
  match env.formula rowIdx p.1 with
  | .error e => (st, some e)
  | .ok none => (st, none)
  | .ok (some f) =>
    if pendingCond f answer_cell then
      let stats0 := { st.stats with total_processed := st.stats.total_processed + 1 }
      match extractFileId f with
      | none =>
        ({ st with stats := recordFailure stats0 rowIdx "Could not parse File ID from cell formula" }, none)
      | some file_id =>
        match env.fetch file_id with
        | .error e => ({ st with stats := recordFailure stats0 rowIdx e }, none)
        | .ok file_content =>
          match env.transcribe file_content with
          | .error e => ({ st with stats := recordFailure stats0 rowIdx e }, none)
          | .ok transcribed_text =>
            match env.updateErr rowIdx p.2 transcribed_text with
            | some e => ({ st with stats := recordFailure stats0 rowIdx e }, none)
            | none =>
              ({ stats := { stats0 with successful := stats0.successful + 1 },
                 sheet := setCell st.sheet rowIdx p.2 transcribed_text,
                 writes := st.writes ++ [(rowIdx, p.2, transcribed_text)] }, none)
    else (st, none)

/-- The inner loop over the configured column pairs, stopping early when
an uncaught exception escapes. -/
def processPairs (env : Env) (row : List String) (rowIdx : Int) :
    List (Nat × Nat) → PairSt → PairSt × Option String
  | [], st => (st, none)
  | p :: ps, st =>
    match processPair env row rowIdx p st with
    | (st1, none) => processPairs env row rowIdx ps st1
    | (st1, some e) => (st1, some e)

/-- The state threaded through the outer row loop, with ghost logs:
`saves` records every `save_progress` call and `scanned` every row index
the loop entered. -/
structure LoopSt where
  stats : Stats
  sheet : List (List String)
  progress : Option Int
  writes : List (Int × Nat × String)
  saves : List Int
  scanned : List Int
deriving Repr, DecidableEq

/-- The outer row loop of `main` (lines 186-238):
`for row_index, row in enumerate(all_rows[start_row:], start=start_row+1)`.
`rows` is the already-sliced snapshot and `idx` the 1-based index of its
first row.  `stats["last_row"] = row_index` happens on loop entry
(line 187); `save_progress(row_index)` runs after the row's pairs
(line 238) and is skipped when an uncaught exception aborts the row. -/
def processRows (env : Env) : List (List String) → Int → LoopSt → LoopSt × Option String
  | [], _, st => (st, none)
  | row :: rows, idx, st =>
    match processPairs env row idx env.colMap
        { stats := { st.stats with last_row := idx }, sheet := st.sheet, writes := st.writes } with
    | (pst, some e) =>
      ({ stats := pst.stats, sheet := pst.sheet, writes := pst.writes,
         progress := st.progress, saves := st.saves, scanned := st.scanned ++ [idx] }, some e)
    | (pst, none) =>
      processRows env rows (idx + 1)
        { stats := pst.stats, sheet := pst.sheet, writes := pst.writes,
          progress := save_progress idx, saves := st.saves ++ [idx],
          scanned := st.scanned ++ [idx] }

/-- Python's slice `l[k:]` for a possibly negative integer `k`. -/
def pySliceFrom (l : List (List String)) (k : Int) : List (List String) :=
  if 0 ≤ k then l.drop k.toNat
  else l.drop (l.length - min l.length (-k).toNat)

/-- The observable outcome of one invocation of `main`: the final
statistics, the transformed world, the ghost logs, the number of
`send_summary_email` calls, and the message of an uncaught exception
(`none` when `main` returned normally). -/
structure RunResult where
  stats : Stats
  world : World
  writes : List (Int × Nat × String)
  saves : List Int
  scanned : List Int
  emails : Nat
  crashed : Option String
deriving Repr, DecidableEq

/-- `main` of `transcribe.py` (lines 147-241), after authentication
succeeded.  On an open failure (lines 165-178) the error is appended to
the error list, one summary email is sent, and `main` returns with zero
counters.  Otherwise the snapshot is `w.sheet`, the start row the loaded
checkpoint, and the row loop runs; a normal completion sends one summary
email, while an uncaught exception propagates (no email, nonzero process
exit). -/
def mainRun (env : Env) (w : World) : RunResult :=
  match env.openErr with
  | some e =>
    { stats := { Stats.start with errors := ["Error accessing Google Sheet: " ++ e] },
      world := w, writes := [], saves := [], scanned := [], emails := 1, crashed := none }
  | none =>
    let start := load_progress w.progress
    let rows := pySliceFrom w.sheet start
    match processRows env rows (start + 1)
        { stats := Stats.start, sheet := w.sheet, progress := w.progress,
          writes := [], saves := [], scanned := [] } with
    | (st, none) =>
      { stats := st.stats, world := { sheet := st.sheet, progress := st.progress },
        writes := st.writes, saves := st.saves, scanned := st.scanned,
        emails := 1, crashed := none }
    | (st, some e) =>
      { stats := st.stats, world := { sheet := st.sheet, progress := st.progress },
        writes := st.writes, saves := st.saves, scanned := st.scanned,
        emails := 0, crashed := some e }

/-- The process exit status: `main` is invoked at module level with no
`sys.exit`, so the process exits 0 whenever `main` returns and non-zero
only when an exception propagates out of `main`. -/
def exitCode (r : RunResult) : Nat := if r.crashed.isSome then 1 else 0

/-- The row loop of a run that opened its sheet, as invoked by `mainRun`:
the snapshot slice, the start index, and the fresh loop state. -/
def runLoop (env : Env) (w : World) : LoopSt × Option String :=
  processRows env (pySliceFrom w.sheet (load_progress w.progress))
    (load_progress w.progress + 1)
    { stats := Stats.start, sheet := w.sheet, progress := w.progress,
      writes := [], saves := [], scanned := [] }

/-- The configured column pairs `ANSWER_COLUMN_MAP` of lines 37-42:
audio columns L, M, N, O to answer columns D, F, H, J. -/
def ANSWER_COLUMN_MAP : List (Nat × Nat) := [(12, 4), (13, 6), (14, 8), (15, 10)]

/-- The outcome of one (row, pair) as a pure function of the oracles:
`none` = not pending (skipped silently, also when the live formula read
would raise), `some true` = the fetch-transcribe-write sequence succeeds,
`some false` = a soft failure (parse, fetch, transcription, or write).
Mirrors the decision structure of `processPair`. -/
def pairStatus (env : Env) (row : List String) (rowIdx : Int) (p : Nat × Nat) : Option Bool :=
  match env.formula rowIdx p.1 with
  | .error _ => none
  | .ok none => none
  | .ok (some f) =>
    if pendingCond f (cellAt row (p.2 - 1)) then
      match extractFileId f with
      | none => some false
      | some file_id =>
        match env.fetch file_id with
        | .error _ => some false
        | .ok file_content =>
          match env.transcribe file_content with
          | .error _ => some false
          | .ok transcribed_text =>
            match env.updateErr rowIdx p.2 transcribed_text with
            | some _ => some false
            | none => some true
    else none

/-- Contribution of one pair outcome to the counter triple
(pending, successful, failed). -/
def statusDelta : Option Bool → Nat × Nat × Nat
  | none => (0, 0, 0)
  | some true => (1, 1, 0)
  | some false => (1, 0, 1)

/-- Counter triple (pending, successful, failed) contributed by one
snapshot row over a list of column pairs. -/
def rowDelta (env : Env) (row : List String) (rowIdx : Int) : List (Nat × Nat) → Nat × Nat × Nat
  | [] => (0, 0, 0)
  | p :: ps =>
    let d := statusDelta (pairStatus env row rowIdx p)
    let r := rowDelta env row rowIdx ps
    (d.1 + r.1, d.2.1 + r.2.1, d.2.2 + r.2.2)

/-- Counter triple (pending, successful, failed) contributed by a list of
snapshot rows starting at 1-based index `idx`, over the configured pairs. -/
def sheetDelta (env : Env) : List (List String) → Int → Nat × Nat × Nat
  | [], _ => (0, 0, 0)
  | row :: rows, idx =>
    let d := rowDelta env row idx env.colMap
    let r := sheetDelta env rows (idx + 1)
    (d.1 + r.1, d.2.1 + r.2.1, d.2.2 + r.2.2)

/-- The ascending run of `n` row indices starting at `idx`. -/
def rowIndices (idx : Int) (n : Nat) : List Int :=
  (List.range n).map (fun (j : Nat) => idx + (j : Int))

/-- An error entry of the form `"Row <n>: <detail>"`. -/
def isRowMsg (e : String) : Prop :=
  ∃ (n : Int) (d : String), e = "Row " ++ toString n ++ ": " ++ d

/-- A raw formula as the sheet returns it for an audio cell holding a
Drive link (the spec's example). -/
def okFormula : String := "=HYPERLINK(\"https://drive.google.com/file/d/ABC123/view\")"

/-- A raw formula containing the marker but no token matching the id
pattern `d/([a-zA-Z0-9_-]+)/`. -/
def noIdFormula : String := "=HYPERLINK(\"https://example.com/file\")"

/-- Oracles for a run in which the live formula read of row 2, column 12
raises and everything else succeeds. -/
def crashEnv : Env :=
  { openErr := none, colMap := ANSWER_COLUMN_MAP,
    formula := fun r a => if r == 2 && a == 12 then .error "APIError" else .ok (some okFormula),
    fetch := fun _ => .ok "bytes",
    transcribe := fun _ => .ok "hello",
    updateErr := fun _ _ _ => none }

/-- A sheet with a header row and two empty data rows, checkpoint 1. -/
def crashWorld : World := { sheet := [["h"], [], []], progress := some 1 }

/-- Oracles for a run in which every external call succeeds and every
audio cell holds `okFormula`. -/
def okEnv : Env :=
  { openErr := none, colMap := ANSWER_COLUMN_MAP,
    formula := fun _ _ => .ok (some okFormula),
    fetch := fun _ => .ok "bytes",
    transcribe := fun _ => .ok "hello",
    updateErr := fun _ _ _ => none }

/-- A sheet with a header row and two empty data rows, checkpoint 2. -/
def resumeWorld : World := { sheet := [["h"], [], []], progress := some 2 }

/-- Oracles for a run whose sheet cannot be opened. -/
def fatalEnv : Env :=
  { openErr := some "SpreadsheetNotFound", colMap := ANSWER_COLUMN_MAP,
    formula := fun _ _ => .ok none,
    fetch := fun _ => .error "unreachable",
    transcribe := fun _ => .error "unreachable",
    updateErr := fun _ _ _ => none }

/-- An empty world for the fatal-path run. -/
def fatalWorld : World := { sheet := [], progress := none }

/-- Oracles for a run with one pending success (column 12) and one
pending parse failure (column 13) per data row. -/
def mixEnv : Env :=
  { openErr := none, colMap := ANSWER_COLUMN_MAP,
    formula := fun _ a =>
      if a == 12 then .ok (some okFormula)
      else if a == 13 then .ok (some noIdFormula)
      else .ok none,
    fetch := fun _ => .ok "bytes",
    transcribe := fun _ => .ok "hello",
    updateErr := fun _ _ _ => none }

/-- A sheet with a header row and one empty data row, checkpoint 1. -/
def mixWorld : World := { sheet := [["h"], []], progress := some 1 }

/-- A string containing the marker is nonempty. -/
theorem marker_ne_empty {f : String} (h : strContains f "HYPERLINK" = true) : (f != "") = true := by
  by_cases hf : f = ""
  · subst hf; exact absurd h (by decide)
  · simp [bne_iff_ne, hf]

/-- The code's classification condition of line 199 is equivalent to
"formula contains the marker and the answer cell is empty". -/
theorem pendingCond_iff {f ans : String} :
    pendingCond f ans = true ↔ (strContains f "HYPERLINK" = true ∧ ans = "") := by
  unfold pendingCond
  constructor
  · intro h
    simp only [Bool.and_eq_true, beq_iff_eq] at h
    exact ⟨h.1.2, h.2⟩
  · rintro ⟨h1, h2⟩
    subst h2
    simp [Bool.and_eq_true, h1, marker_ne_empty h1]

/-- Claim C9 — confirmed.  Checkpoint store round-trip and default:
saving `n` and loading yields `n`; loading with no file ever saved
yields the default 1. -/
theorem C9_roundtrip :
    (∀ n : Int, load_progress (save_progress n) = n) ∧ load_progress none = 1 :=
  ⟨fun _ => rfl, rfl⟩

/-- Witness for C9 at the concrete value 42. -/
theorem C9_roundtrip_witness :
    load_progress (save_progress 42) = 42 ∧ load_progress none = 1 :=
  ⟨C9_roundtrip.1 42, C9_roundtrip.2⟩

/-- Counterexample to claim C3 as stated: on a run whose row source
cannot be opened, the statistics are zero and exactly one notification is
sent, but the process exit status is 0, not non-zero — `main` returns
normally and `transcribe.py` never calls `sys.exit`. -/
theorem C3_counterexample :
    fatalEnv.openErr = some "SpreadsheetNotFound" ∧
    (mainRun fatalEnv fatalWorld).stats.total_processed = 0 ∧
    (mainRun fatalEnv fatalWorld).emails = 1 ∧
    exitCode (mainRun fatalEnv fatalWorld) = 0 := by
  refine ⟨rfl, rfl, rfl, rfl⟩

/-- Claim C3 — amended.  If the row source cannot be opened the run
short-circuits with zero counters, no scanned rows, and exactly one
notification call, and the process exits 0; a run in which `main`
returns normally (no uncaught exception) also exits 0, so the exit
status never distinguishes the fatal path from normal completion. -/
theorem C3_fatal_short_circuit :
    (∀ (env : Env) (w : World) (e : String), env.openErr = some e →
       (mainRun env w).stats.total_processed = 0 ∧
       (mainRun env w).stats.successful = 0 ∧
       (mainRun env w).stats.failed = 0 ∧
       (mainRun env w).scanned = [] ∧
       (mainRun env w).emails = 1 ∧
       exitCode (mainRun env w) = 0) ∧
    (∀ (env : Env) (w : World), (mainRun env w).crashed = none →
       exitCode (mainRun env w) = 0) := by
  constructor
  · intro env w e h
    simp [mainRun, h, exitCode, Stats.start]
  · intro env w h
    simp [exitCode, h]

/-- Witness for the amended C3 on the concrete fatal environment. -/
theorem C3_fatal_short_circuit_witness :
    fatalEnv.openErr = some "SpreadsheetNotFound" ∧
    ((mainRun fatalEnv fatalWorld).stats.total_processed = 0 ∧
     (mainRun fatalEnv fatalWorld).stats.successful = 0 ∧
     (mainRun fatalEnv fatalWorld).stats.failed = 0 ∧
     (mainRun fatalEnv fatalWorld).scanned = [] ∧
     (mainRun fatalEnv fatalWorld).emails = 1 ∧
     exitCode (mainRun fatalEnv fatalWorld) = 0) :=
  ⟨rfl, C3_fatal_short_circuit.1 fatalEnv fatalWorld "SpreadsheetNotFound" rfl⟩

/-- Counterexample to claim C1 as stated: the live raw-formula read of
line 196 sits outside the `try` block, so its failure is not recorded in
Run Statistics and aborts the run — the error list stays empty, the loop
does not continue to row 3, and no summary notification is sent. -/
theorem C1_counterexample :
    (mainRun crashEnv crashWorld).crashed = some "APIError" ∧
    (mainRun crashEnv crashWorld).stats.errors = [] ∧
    (mainRun crashEnv crashWorld).stats.failed = 0 ∧
    (mainRun crashEnv crashWorld).scanned = [2] ∧
    (mainRun crashEnv crashWorld).emails = 0 := by
  refine ⟨rfl, rfl, rfl, rfl, rfl⟩

/-- Counterexample to claim C2 as stated: with persisted checkpoint 2 the
scan starts at row 3, not at row 2 — row 2 is never visited. -/
theorem C2_counterexample :
    load_progress resumeWorld.progress = 2 ∧
    (mainRun okEnv resumeWorld).scanned = [3] ∧
    ¬ ((2 : Int) ∈ (mainRun okEnv resumeWorld).scanned) := by
  refine ⟨rfl, by decide, by decide⟩

/-- A pending cell always increments `total_processed` by exactly one,
whatever happens afterwards. -/
theorem processPair_pending_total (env : Env) (row : List String) (idx : Int) (a t : Nat)
    (st : PairSt) (f : String) (h : env.formula idx a = .ok (some f))
    (hp : pendingCond f (cellAt row (t - 1)) = true) :
    (processPair env row idx (a, t) st).1.stats.total_processed = st.stats.total_processed + 1 := by
  simp only [processPair, h, hp, if_true]
  cases he : extractFileId f with
  | none => simp [he, recordFailure]
  | some file_id =>
    cases hf : env.fetch file_id with
    | error e => simp [he, hf, recordFailure]
    | ok file_content =>
      cases ht : env.transcribe file_content with
      | error e => simp [he, hf, ht, recordFailure]
      | ok transcribed_text =>
        cases hu : env.updateErr idx t transcribed_text with
        | none => simp [he, hf, ht, hu]
        | some e => simp [he, hf, ht, hu, recordFailure]

/-- A readable non-pending cell is skipped silently: state unchanged,
no uncaught exception. -/
theorem processPair_not_pending (env : Env) (row : List String) (idx : Int) (a t : Nat)
    (st : PairSt) (fOpt : Option String) (h : env.formula idx a = .ok fOpt)
    (hn : ¬ (containsMarker fOpt = true ∧ cellAt row (t - 1) = "")) :
    processPair env row idx (a, t) st = (st, none) := by
  cases fOpt with
  | none => simp [processPair, h]
  | some f =>
    have hp : ¬ (pendingCond f (cellAt row (t - 1)) = true) := by
      intro hc
      exact hn ⟨(pendingCond_iff.mp hc).1, (pendingCond_iff.mp hc).2⟩
    simp [processPair, h, hp]

/-- Claim C4 — confirmed.  A readable cell is classified pending (its
processing increments `total_processed`) iff the live raw formula
contains the marker and the snapshot's target cell is empty; every other
combination leaves the state untouched; and on the spec's example
formula the extracted id is `ABC123`. -/
theorem C4_pending_classification :
    (∀ (env : Env) (row : List String) (idx : Int) (a t : Nat) (st : PairSt) (fOpt : Option String),
       env.formula idx a = .ok fOpt →
       (((processPair env row idx (a, t) st).1.stats.total_processed = st.stats.total_processed + 1) ↔
          (containsMarker fOpt = true ∧ cellAt row (t - 1) = "")) ∧
       (¬ (containsMarker fOpt = true ∧ cellAt row (t - 1) = "") →
          processPair env row idx (a, t) st = (st, none))) ∧
    extractFileId okFormula = some "ABC123" ∧
    containsMarker (some okFormula) = true := by
  refine ⟨?_, by decide, by decide⟩
  intro env row idx a t st fOpt h
  constructor
  · constructor
    · intro htot
      by_contra hn
      rw [processPair_not_pending env row idx a t st fOpt h hn] at htot
      simp at htot
    · rintro ⟨hm, he⟩
      cases fOpt with
      | none => exact absurd hm (by simp [containsMarker])
      | some f =>
        exact processPair_pending_total env row idx a t st f h (pendingCond_iff.mpr ⟨hm, he⟩)
  · exact processPair_not_pending env row idx a t st fOpt h

/-- Witness for C4 on the spec's example formula with an empty target. -/
theorem C4_pending_classification_witness :
    okEnv.formula 2 12 = Except.ok (some okFormula) ∧
    ((((processPair okEnv [] 2 (12, 4) { stats := Stats.start, sheet := [], writes := [] }).1.stats.total_processed =
        Stats.start.total_processed + 1) ↔
       (containsMarker (some okFormula) = true ∧ cellAt [] (4 - 1) = "")) ∧
     (¬ (containsMarker (some okFormula) = true ∧ cellAt [] (4 - 1) = "") →
       processPair okEnv [] 2 (12, 4) { stats := Stats.start, sheet := [], writes := [] } =
         ({ stats := Stats.start, sheet := [], writes := [] }, none))) :=
  ⟨rfl, C4_pending_classification.1 okEnv [] 2 12 4
    { stats := Stats.start, sheet := [], writes := [] } (some okFormula) rfl⟩

/-- Processing a pair whose second component reports no exception leaves
the remaining pairs of the same row to be processed. -/
theorem processPairs_cons_ok (env : Env) (row : List String) (idx : Int) (p : Nat × Nat)
    (ps : List (Nat × Nat)) (st : PairSt) (h : (processPair env row idx p st).2 = none) :
    processPairs env row idx (p :: ps) st =
      processPairs env row idx ps (processPair env row idx p st).1 := by
  cases hp : processPair env row idx p st with
  | mk st1 c =>
    cases c with
    | none => simp [processPairs, hp]
    | some e => rw [hp] at h; simp at h

/-- Claim C8 — confirmed.  Parse-failure isolation: a pending cell whose
formula contains the marker but no token matching the id pattern appends
exactly one failure entry, increments the failure counter once, raises
nothing, and processing continues with the next configured pair of the
same row. -/
theorem C8_parse_failure :
    ∀ (env : Env) (row : List String) (idx : Int) (a t : Nat) (st : PairSt) (f : String)
      (ps : List (Nat × Nat)),
      env.formula idx a = .ok (some f) →
      strContains f "HYPERLINK" = true →
      cellAt row (t - 1) = "" →
      extractFileId f = none →
      processPair env row idx (a, t) st =
        ({ st with stats := recordFailure { st.stats with total_processed := st.stats.total_processed + 1 } idx "Could not parse File ID from cell formula" }, none) ∧
      (processPair env row idx (a, t) st).1.stats.failed = st.stats.failed + 1 ∧
      (processPair env row idx (a, t) st).1.stats.errors =
        st.stats.errors ++ ["Row " ++ toString idx ++ ": " ++ "Could not parse File ID from cell formula"] ∧
      processPairs env row idx ((a, t) :: ps) st =
        processPairs env row idx ps (processPair env row idx (a, t) st).1 := by
  intro env row idx a t st f ps h hm he hx
  have hp : pendingCond f (cellAt row (t - 1)) = true := pendingCond_iff.mpr ⟨hm, he⟩
  have heq : processPair env row idx (a, t) st =
      ({ st with stats := recordFailure { st.stats with total_processed := st.stats.total_processed + 1 } idx "Could not parse File ID from cell formula" }, none) := by
    simp only [processPair, h, hp, if_true, hx]
  refine ⟨heq, ?_, ?_, ?_⟩
  · rw [heq]; simp [recordFailure]
  · rw [heq]; simp [recordFailure]
  · exact processPairs_cons_ok env row idx (a, t) ps st (by rw [heq])

/-- Witness for C8 on the concrete marker-but-no-id formula. -/
theorem C8_parse_failure_witness :
    mixEnv.formula 2 13 = Except.ok (some noIdFormula) ∧
    strContains noIdFormula "HYPERLINK" = true ∧
    extractFileId noIdFormula = none ∧
    ((processPair mixEnv [] 2 (13, 6) { stats := Stats.start, sheet := [], writes := [] }).1.stats.failed =
       Stats.start.failed + 1 ∧
     processPairs mixEnv [] 2 ((13, 6) :: [(14, 8)]) { stats := Stats.start, sheet := [], writes := [] } =
       processPairs mixEnv [] 2 [(14, 8)]
         (processPair mixEnv [] 2 (13, 6) { stats := Stats.start, sheet := [], writes := [] }).1) := by
  refine ⟨rfl, by decide, by decide, ?_, ?_⟩
  · exact (C8_parse_failure mixEnv [] 2 13 6 { stats := Stats.start, sheet := [], writes := [] }
      noIdFormula [(14, 8)] rfl (by decide) rfl (by decide)).2.1
  · exact (C8_parse_failure mixEnv [] 2 13 6 { stats := Stats.start, sheet := [], writes := [] }
      noIdFormula [(14, 8)] rfl (by decide) rfl (by decide)).2.2.2

/-- Claim C10 — confirmed.  Short-row totality: a snapshot cell beyond
the row's length reads as the empty string instead of raising, and a row
too short to contain the target column has an empty target, so a cell
with a marker formula there is still classified pending. -/
theorem C10_short_row_total :
    (∀ (row : List String) (i : Nat), row.length ≤ i → cellAt row i = "") ∧
    (∀ (env : Env) (row : List String) (idx : Int) (a t : Nat) (st : PairSt) (f : String),
       env.formula idx a = .ok (some f) →
       strContains f "HYPERLINK" = true →
       row.length ≤ t - 1 →
       (processPair env row idx (a, t) st).1.stats.total_processed = st.stats.total_processed + 1) := by
  constructor
  · intro row i h
    exact List.getD_eq_default _ _ h
  · intro env row idx a t st f h hm hshort
    have he : cellAt row (t - 1) = "" := List.getD_eq_default _ _ hshort
    exact processPair_pending_total env row idx a t st f h (pendingCond_iff.mpr ⟨hm, he⟩)

/-- Witness for C10 on an empty row and target column 4. -/
theorem C10_short_row_total_witness :
    cellAt [] 3 = "" ∧
    (processPair okEnv [] 2 (12, 4) { stats := Stats.start, sheet := [], writes := [] }).1.stats.total_processed =
      Stats.start.total_processed + 1 :=
  ⟨C10_short_row_total.1 [] 3 (by decide),
   C10_short_row_total.2 okEnv [] 2 12 4 { stats := Stats.start, sheet := [], writes := [] }
     okFormula rfl (by decide) (by decide)⟩

/-- The empty index run. -/
theorem rowIndices_zero (idx : Int) : rowIndices idx 0 = [] := rfl

/-- Peeling the first index off an index run. -/
theorem rowIndices_succ (idx : Int) (n : Nat) :
    rowIndices idx (n + 1) = idx :: rowIndices (idx + 1) n := by
  unfold rowIndices
  rw [List.range_succ_eq_map, List.map_cons, List.map_map]
  congr 1
  · simp
  · refine List.map_congr_left ?_
    intro a _
    simp only [Function.comp_apply]
    push_cast
    ring

/-- Peeling the last index off an index run. -/
theorem rowIndices_concat (idx : Int) (n : Nat) :
    rowIndices idx (n + 1) = rowIndices idx n ++ [idx + n] := by
  unfold rowIndices
  rw [List.range_succ]
  simp

/-- Length of an index run. -/
theorem rowIndices_length (idx : Int) (n : Nat) : (rowIndices idx n).length = n := by
  unfold rowIndices
  rw [List.length_map, List.length_range]

/-- Dropping the last element of an index run. -/
theorem rowIndices_dropLast (idx : Int) (n : Nat) :
    (rowIndices idx n).dropLast = rowIndices idx (n - 1) := by
  cases n with
  | zero => rfl
  | succ k =>
    rw [rowIndices_concat]
    simp

/-- Membership in an index run. -/
theorem rowIndices_mem {i idx : Int} {n : Nat} :
    i ∈ rowIndices idx n ↔ ∃ j : Nat, j < n ∧ i = idx + j := by
  unfold rowIndices
  rw [List.mem_map]
  constructor
  · rintro ⟨j, hj, hji⟩
    exact ⟨j, List.mem_range.mp hj, hji.symm⟩
  · rintro ⟨j, hj, rfl⟩
    exact ⟨j, List.mem_range.mpr hj, rfl⟩

/-- An index run is strictly ascending. -/
theorem rowIndices_pairwise (idx : Int) (n : Nat) :
    List.Pairwise (fun a b => a < b) (rowIndices idx n) := by
  unfold rowIndices
  rw [List.pairwise_map]
  refine (List.pairwise_lt_range n).imp ?_
  intro a b h
  dsimp only
  omega

/-- Unfolding `mainRun` on a run whose sheet opens: every observable
field comes from the row loop `runLoop`. -/
theorem mainRun_open_spec (env : Env) (w : World) (h : env.openErr = none) :
    (mainRun env w).stats = (runLoop env w).1.stats ∧
    (mainRun env w).world = { sheet := (runLoop env w).1.sheet, progress := (runLoop env w).1.progress } ∧
    (mainRun env w).writes = (runLoop env w).1.writes ∧
    (mainRun env w).saves = (runLoop env w).1.saves ∧
    (mainRun env w).scanned = (runLoop env w).1.scanned ∧
    (mainRun env w).crashed = (runLoop env w).2 ∧
    (mainRun env w).emails = (if (runLoop env w).2 = none then 1 else 0) := by
  cases hr : runLoop env w with
  | mk st c =>
    rw [runLoop] at hr
    cases c with
    | none => simp [mainRun, h, runLoop, hr]
    | some e => simp [mainRun, h, runLoop, hr]

/-- A pair whose live formula read succeeds raises nothing. -/
theorem processPair_no_crash (env : Env) (row : List String) (idx : Int) (p : Nat × Nat)
    (st : PairSt) (hform : ∀ e, env.formula idx p.1 ≠ .error e) :
    (processPair env row idx p st).2 = none := by
  cases hf : env.formula idx p.1 with
  | error e => exact absurd hf (hform e)
  | ok fOpt =>
    cases fOpt with
    | none => simp [processPair, hf]
    | some f =>
      simp only [processPair, hf]
      by_cases hc : pendingCond f (cellAt row (p.2 - 1)) = true
      · simp only [hc, if_true]
        cases he : extractFileId f with
        | none => simp [he]
        | some fid =>
          cases hf2 : env.fetch fid with
          | error e => simp [he, hf2]
          | ok b =>
            cases ht : env.transcribe b with
            | error e => simp [he, hf2, ht]
            | ok tx =>
              cases hu : env.updateErr idx p.2 tx with
              | none => simp [he, hf2, ht, hu]
              | some e => simp [he, hf2, ht, hu]
      · simp [hc]

/-- A row all of whose live formula reads succeed raises nothing. -/
theorem processPairs_no_crash (env : Env) (row : List String) (idx : Int)
    (hform : ∀ (a : Nat) (e : String), env.formula idx a ≠ .error e) :
    ∀ (ps : List (Nat × Nat)) (st : PairSt), (processPairs env row idx ps st).2 = none := by
  intro ps
  induction ps with
  | nil => intro st; rfl
  | cons p ps ih =>
    intro st
    cases hp : processPair env row idx p st with
    | mk st1 c =>
      cases c with
      | none => simpa [processPairs, hp] using ih st1
      | some e =>
        have hnc := processPair_no_crash env row idx p st (fun e => hform p.1 e)
        rw [hp] at hnc
        simp at hnc

/-- A run all of whose live formula reads succeed raises nothing. -/
theorem processRows_no_crash (env : Env)
    (hform : ∀ (i : Int) (a : Nat) (e : String), env.formula i a ≠ .error e) :
    ∀ (rows : List (List String)) (idx : Int) (st : LoopSt),
      (processRows env rows idx st).2 = none := by
  intro rows
  induction rows with
  | nil => intro idx st; rfl
  | cons row rows ih =>
    intro idx st
    cases hp : processPairs env row idx env.colMap
        { stats := { st.stats with last_row := idx }, sheet := st.sheet, writes := st.writes } with
    | mk pst c =>
      cases c with
      | none => simpa [processRows, hp] using ih (idx + 1) _
      | some e =>
        have hnc := processPairs_no_crash env row idx (fun a e => hform idx a e) env.colMap
          { stats := { st.stats with last_row := idx }, sheet := st.sheet, writes := st.writes }
        rw [hp] at hnc
        simp at hnc

/-- A successful cell write never changes the number of rows. -/
theorem setCell_length (sheet : List (List String)) (r : Int) (col : Nat) (text : String) :
    (setCell sheet r col text).length = sheet.length := by
  unfold setCell
  split <;> simp

/-- One pair never changes the number of rows of the live sheet. -/
theorem processPair_sheet_len (env : Env) (row : List String) (idx : Int) (p : Nat × Nat)
    (st : PairSt) : (processPair env row idx p st).1.sheet.length = st.sheet.length := by
  cases hf : env.formula idx p.1 with
  | error e => simp [processPair, hf]
  | ok fOpt =>
    cases fOpt with
    | none => simp [processPair, hf]
    | some f =>
      simp only [processPair, hf]
      by_cases hc : pendingCond f (cellAt row (p.2 - 1)) = true
      · simp only [hc, if_true]
        cases he : extractFileId f with
        | none => simp [he]
        | some fid =>
          cases hf2 : env.fetch fid with
          | error e => simp [he, hf2]
          | ok b =>
            cases ht : env.transcribe b with
            | error e => simp [he, hf2, ht]
            | ok tx =>
              cases hu : env.updateErr idx p.2 tx with
              | none => simp [he, hf2, ht, hu, setCell_length]
              | some e => simp [he, hf2, ht, hu]
      · simp [hc]

/-- One row never changes the number of rows of the live sheet. -/
theorem processPairs_sheet_len (env : Env) (row : List String) (idx : Int) :
    ∀ (ps : List (Nat × Nat)) (st : PairSt),
      (processPairs env row idx ps st).1.sheet.length = st.sheet.length := by
  intro ps
  induction ps with
  | nil => intro st; rfl
  | cons p ps ih =>
    intro st
    cases hp : processPair env row idx p st with
    | mk st1 c =>
      have hlen : st1.sheet.length = st.sheet.length := by
        have := processPair_sheet_len env row idx p st
        rw [hp] at this
        exact this
      cases c with
      | none =>
        simp only [processPairs, hp]
        rw [ih st1]
        exact hlen
      | some e =>
        simp only [processPairs, hp]
        exact hlen

/-- The row loop never changes the number of rows of the live sheet. -/
theorem processRows_sheet_len (env : Env) :
    ∀ (rows : List (List String)) (idx : Int) (st : LoopSt),
      (processRows env rows idx st).1.sheet.length = st.sheet.length := by
  intro rows
  induction rows with
  | nil => intro idx st; rfl
  | cons row rows ih =>
    intro idx st
    cases hp : processPairs env row idx env.colMap
        { stats := { st.stats with last_row := idx }, sheet := st.sheet, writes := st.writes } with
    | mk pst c =>
      have hlen : pst.sheet.length = st.sheet.length := by
        have := processPairs_sheet_len env row idx env.colMap
          { stats := { st.stats with last_row := idx }, sheet := st.sheet, writes := st.writes }
        rw [hp] at this
        exact this
      cases c with
      | none =>
        simp only [processRows, hp]
        rw [ih (idx + 1) _]
        exact hlen
      | some e =>
        simp only [processRows, hp]
        exact hlen

/-- Master description of the row loop's ghost state: some prefix of `m`
rows is entered, in ascending order; on normal completion all rows are
entered and each entered row is saved; on a crash the crashed row is
entered but not saved, and the checkpoint holds the row before it (or is
untouched when the very first row crashed). -/
theorem processRows_master (env : Env) (rows : List (List String)) :
    ∀ (idx : Int) (st : LoopSt),
      ∃ m : Nat, m ≤ rows.length ∧
        (processRows env rows idx st).1.scanned = st.scanned ++ rowIndices idx m ∧
        ((processRows env rows idx st).2 = none →
           m = rows.length ∧
           (processRows env rows idx st).1.saves = st.saves ++ rowIndices idx m ∧
           ((m = 0 ∧ (processRows env rows idx st).1.progress = st.progress) ∨
            (0 < m ∧ (processRows env rows idx st).1.progress = some (idx + (m : Int) - 1)))) ∧
        (∀ e, (processRows env rows idx st).2 = some e →
           0 < m ∧
           (processRows env rows idx st).1.saves = st.saves ++ rowIndices idx (m - 1) ∧
           ((m = 1 ∧ (processRows env rows idx st).1.progress = st.progress) ∨
            (1 < m ∧ (processRows env rows idx st).1.progress = some (idx + (m : Int) - 2)))) := by
  induction rows with
  | nil =>
    intro idx st
    refine ⟨0, Nat.le_refl 0, ?_, ?_, ?_⟩
    · simp [processRows, rowIndices]
    · intro _
      exact ⟨rfl, by simp [processRows, rowIndices], Or.inl ⟨rfl, rfl⟩⟩
    · intro e he
      simp [processRows] at he
  | cons row rows ih =>
    intro idx st
    cases hp : processPairs env row idx env.colMap
        { stats := { st.stats with last_row := idx }, sheet := st.sheet, writes := st.writes } with
    | mk pst c =>
      cases c with
      | some e0 =>
        refine ⟨1, Nat.succ_le_succ (Nat.zero_le _), ?_, ?_, ?_⟩
        · simp only [processRows, hp]
          simp [rowIndices_succ, rowIndices_zero]
        · intro hnone
          simp only [processRows, hp] at hnone
          simp at hnone
        · intro e he
          refine ⟨Nat.one_pos, ?_, Or.inl ⟨rfl, ?_⟩⟩
          · simp only [processRows, hp]
            simp [rowIndices_zero]
          · simp only [processRows, hp]
      | none =>
        have hstep : processRows env (row :: rows) idx st =
            processRows env rows (idx + 1)
              { stats := pst.stats, sheet := pst.sheet, writes := pst.writes,
                progress := save_progress idx, saves := st.saves ++ [idx],
                scanned := st.scanned ++ [idx] } := by
          simp only [processRows, hp]
        obtain ⟨m, hm, hscan, hok, hcrash⟩ := ih (idx + 1)
          { stats := pst.stats, sheet := pst.sheet, writes := pst.writes,
            progress := save_progress idx, saves := st.saves ++ [idx],
            scanned := st.scanned ++ [idx] }
        refine ⟨m + 1, Nat.succ_le_succ hm, ?_, ?_, ?_⟩
        · rw [hstep, hscan]
          simp [rowIndices_succ, List.append_assoc]
        · intro hnone
          rw [hstep] at hnone
          obtain ⟨hmlen, hsaves, hprog⟩ := hok hnone
          refine ⟨by simp [hmlen], ?_, ?_⟩
          · rw [hstep, hsaves]
            simp [rowIndices_succ, List.append_assoc]
          · right
            refine ⟨Nat.succ_pos m, ?_⟩
            rw [hstep]
            rcases hprog with ⟨hm0, hpr⟩ | ⟨hmpos, hpr⟩
            · subst hm0
              rw [hpr]
              simp only [save_progress]
              congr 1
              push_cast
              ring
            · rw [hpr]
              congr 1
              push_cast
              ring
        · intro e he
          rw [hstep] at he
          obtain ⟨hmpos, hsaves, hprog⟩ := hcrash e he
          refine ⟨Nat.succ_pos m, ?_, ?_⟩
          · rw [hstep, hsaves]
            have hrw : rowIndices idx (m + 1 - 1) = idx :: rowIndices (idx + 1) (m - 1) := by
              cases m with
              | zero => omega
              | succ k => simp [rowIndices_succ, Nat.succ_sub_one]
            rw [hrw]
            simp [List.append_assoc]
          · right
            refine ⟨by omega, ?_⟩
            rw [hstep]
            rcases hprog with ⟨hm1, hpr⟩ | ⟨hm2, hpr⟩
            · subst hm1
              rw [hpr]
              simp only [save_progress]
              congr 1
              push_cast
              ring
            · rw [hpr]
              congr 1
              push_cast
              ring

/-- `runLoop` unfolded to its `processRows` call. -/
theorem runLoop_eq (env : Env) (w : World) :
    runLoop env w = processRows env (pySliceFrom w.sheet (load_progress w.progress))
      (load_progress w.progress + 1)
      { stats := Stats.start, sheet := w.sheet, progress := w.progress,
        writes := [], saves := [], scanned := [] } := rfl

/-- Loading a present checkpoint value. -/
theorem load_progress_some (n : Int) : load_progress (some n) = n := rfl

/-- The slice is empty from any start at or past the end. -/
theorem pySliceFrom_nil {l : List (List String)} {k : Int}
    (h0 : 0 ≤ k) (hl : (l.length : Int) ≤ k) : pySliceFrom l k = [] := by
  unfold pySliceFrom
  rw [if_pos h0]
  apply List.drop_eq_nil_of_le
  omega

/-- Length of the slice from a nonnegative start. -/
theorem pySliceFrom_length {l : List (List String)} {k : Int} (h0 : 0 ≤ k) :
    (pySliceFrom l k).length = l.length - k.toNat := by
  unfold pySliceFrom
  rw [if_pos h0]
  exact List.length_drop _ _

/-- Claim C1 — amended.  Parse, fetch, transcription, and write errors
are all soft: whenever the sheet opens and every live formula read
succeeds, the run raises no exception, scans every snapshot row after
the checkpoint whatever those oracles do, and sends the one summary
notification.  (As stated the claim is false: a live formula-read error
is uncaught and aborts the run, see the counterexample.) -/
theorem C1_soft_errors (env : Env) (w : World) (h : env.openErr = none)
    (hform : ∀ (i : Int) (a : Nat) (e : String), env.formula i a ≠ .error e) :
    (mainRun env w).crashed = none ∧
    (mainRun env w).emails = 1 ∧
    (mainRun env w).scanned =
      rowIndices (load_progress w.progress + 1)
        (pySliceFrom w.sheet (load_progress w.progress)).length := by
  obtain ⟨_, _, _, _, hscan, hcrash, hemails⟩ := mainRun_open_spec env w h
  have hnc : (runLoop env w).2 = none := by
    rw [runLoop_eq]
    exact processRows_no_crash env hform _ _ _
  obtain ⟨m, hm, hscanned, hok, _⟩ := processRows_master env
    (pySliceFrom w.sheet (load_progress w.progress)) (load_progress w.progress + 1)
    { stats := Stats.start, sheet := w.sheet, progress := w.progress,
      writes := [], saves := [], scanned := [] }
  rw [← runLoop_eq env w] at hscanned hok
  have hmlen := (hok hnc).1
  refine ⟨by rw [hcrash]; exact hnc, by rw [hemails, if_pos hnc], ?_⟩
  rw [hscan, hscanned, hmlen]
  simp

/-- Witness for the amended C1: oracles with a soft parse failure in
every data row still complete the scan and notify. -/
theorem C1_soft_errors_witness :
    mixEnv.openErr = none ∧
    ((mainRun mixEnv mixWorld).crashed = none ∧
     (mainRun mixEnv mixWorld).emails = 1 ∧
     (mainRun mixEnv mixWorld).scanned =
       rowIndices (load_progress mixWorld.progress + 1)
         (pySliceFrom mixWorld.sheet (load_progress mixWorld.progress)).length) := by
  refine ⟨rfl, C1_soft_errors mixEnv mixWorld rfl ?_⟩
  intro i a e
  simp only [mixEnv]
  split
  · simp
  · split <;> simp

/-- Claim C2 — amended.  Resume correctness: with checkpoint `K` every
scanned row index is strictly greater than `K` (the scan starts at
`K + 1`, not at `K`), rows are visited in strictly ascending order, and
a run without an uncaught exception scans exactly the rows `K + 1`
through the end of the snapshot. -/
theorem C2_resume (env : Env) (w : World) (h : env.openErr = none) :
    (∀ i ∈ (mainRun env w).scanned, load_progress w.progress < i) ∧
    List.Pairwise (fun a b => a < b) (mainRun env w).scanned ∧
    ((mainRun env w).crashed = none →
       (mainRun env w).scanned =
         rowIndices (load_progress w.progress + 1)
           (pySliceFrom w.sheet (load_progress w.progress)).length) := by
  obtain ⟨_, _, _, _, hscan, hcrash, _⟩ := mainRun_open_spec env w h
  obtain ⟨m, hm, hscanned, hok, _⟩ := processRows_master env
    (pySliceFrom w.sheet (load_progress w.progress)) (load_progress w.progress + 1)
    { stats := Stats.start, sheet := w.sheet, progress := w.progress,
      writes := [], saves := [], scanned := [] }
  rw [← runLoop_eq env w] at hscanned hok
  have hscan2 : (mainRun env w).scanned = rowIndices (load_progress w.progress + 1) m := by
    rw [hscan, hscanned]
    simp
  refine ⟨?_, ?_, ?_⟩
  · intro i hi
    rw [hscan2] at hi
    obtain ⟨j, hj, rfl⟩ := rowIndices_mem.mp hi
    omega
  · rw [hscan2]
    exact rowIndices_pairwise _ _
  · intro hcnone
    have hnc : (runLoop env w).2 = none := by rw [← hcrash]; exact hcnone
    have hmlen := (hok hnc).1
    rw [hscan2, hmlen]

/-- Witness for the amended C2 with checkpoint 2 over a 3-row sheet. -/
theorem C2_resume_witness :
    okEnv.openErr = none ∧
    (∀ i ∈ (mainRun okEnv resumeWorld).scanned, load_progress resumeWorld.progress < i) ∧
    List.Pairwise (fun a b => a < b) (mainRun okEnv resumeWorld).scanned ∧
    ((mainRun okEnv resumeWorld).crashed = none →
       (mainRun okEnv resumeWorld).scanned =
         rowIndices (load_progress resumeWorld.progress + 1)
           (pySliceFrom resumeWorld.sheet (load_progress resumeWorld.progress)).length) :=
  ⟨rfl, (C2_resume okEnv resumeWorld rfl).1, (C2_resume okEnv resumeWorld rfl).2.1,
   (C2_resume okEnv resumeWorld rfl).2.2⟩

/-- Claim C6 — confirmed.  Checkpoint lifecycle: in a run without an
uncaught exception the checkpoint is rewritten exactly once per scanned
row, to that row's index (the save log equals the scan log); when an
uncaught exception aborts a row, every previously scanned row was saved
(the save log is the scan log without its last entry); and in every run
the checkpoint value after the run is at least the value before it. -/
theorem C6_checkpoint (env : Env) (w : World) :
    ((mainRun env w).crashed = none → (mainRun env w).saves = (mainRun env w).scanned) ∧
    (∀ e, (mainRun env w).crashed = some e →
       (mainRun env w).saves = (mainRun env w).scanned.dropLast) ∧
    load_progress w.progress ≤ load_progress (mainRun env w).world.progress := by
  cases ho : env.openErr with
  | some e =>
    refine ⟨?_, ?_, ?_⟩
    · intro _
      simp [mainRun, ho]
    · intro e' he'
      simp [mainRun, ho] at he'
    · simp [mainRun, ho]
  | none =>
    obtain ⟨_, hworld, _, hsaves, hscan, hcrash, _⟩ := mainRun_open_spec env w ho
    obtain ⟨m, hm, hscanned, hok, hcr⟩ := processRows_master env
      (pySliceFrom w.sheet (load_progress w.progress)) (load_progress w.progress + 1)
      { stats := Stats.start, sheet := w.sheet, progress := w.progress,
        writes := [], saves := [], scanned := [] }
    rw [← runLoop_eq env w] at hscanned hok hcr
    refine ⟨?_, ?_, ?_⟩
    · intro hnone
      have hnc : (runLoop env w).2 = none := by rw [← hcrash]; exact hnone
      obtain ⟨_, hs, _⟩ := hok hnc
      rw [hsaves, hscan, hs, hscanned]
    · intro e he
      have hc2 : (runLoop env w).2 = some e := by rw [← hcrash]; exact he
      obtain ⟨hpos, hs, _⟩ := hcr e hc2
      rw [hsaves, hscan, hs, hscanned]
      simp [rowIndices_dropLast]
    · rw [hworld]
      show load_progress w.progress ≤ load_progress (runLoop env w).1.progress
      cases hc : (runLoop env w).2 with
      | none =>
        obtain ⟨_, _, hp⟩ := hok hc
        rcases hp with ⟨_, hpr⟩ | ⟨hpos, hpr⟩
        · rw [hpr]
        · rw [hpr]
          simp only [load_progress]
          omega
      | some e =>
        obtain ⟨hpos, _, hp⟩ := hcr e hc
        rcases hp with ⟨_, hpr⟩ | ⟨hm2, hpr⟩
        · rw [hpr]
        · rw [hpr]
          simp only [load_progress]
          omega

/-- Witness for C6 on a completing run: the save log equals the scan
log and the checkpoint does not decrease. -/
theorem C6_checkpoint_witness :
    (mainRun okEnv resumeWorld).crashed = none ∧
    (mainRun okEnv resumeWorld).saves = (mainRun okEnv resumeWorld).scanned ∧
    load_progress resumeWorld.progress ≤ load_progress (mainRun okEnv resumeWorld).world.progress :=
  ⟨by decide, (C6_checkpoint okEnv resumeWorld).1 (by decide),
   (C6_checkpoint okEnv resumeWorld).2.2⟩

/-- Claim C5 — confirmed.  Idempotence: after a run that opened its
sheet from a nonnegative checkpoint and raised no exception, running
again in the resulting world (same oracles, no intervening change)
performs zero successful cell writes: the advanced checkpoint leaves an
empty slice to scan. -/
theorem C5_idempotent (env : Env) (w : World) (h : env.openErr = none)
    (hK : 0 ≤ load_progress w.progress)
    (hnc : (mainRun env w).crashed = none) :
    (mainRun env (mainRun env w).world).stats.successful = 0 ∧
    (mainRun env (mainRun env w).world).writes = [] ∧
    (mainRun env (mainRun env w).world).crashed = none := by
  obtain ⟨_, hworld, _, _, _, hcrash, _⟩ := mainRun_open_spec env w h
  obtain ⟨m, hm, hscanned, hok, _⟩ := processRows_master env
    (pySliceFrom w.sheet (load_progress w.progress)) (load_progress w.progress + 1)
    { stats := Stats.start, sheet := w.sheet, progress := w.progress,
      writes := [], saves := [], scanned := [] }
  rw [← runLoop_eq env w] at hscanned hok
  have hnc2 : (runLoop env w).2 = none := by rw [← hcrash]; exact hnc
  obtain ⟨hmlen, _, hprog⟩ := hok hnc2
  have hlen : (runLoop env w).1.sheet.length = w.sheet.length := by
    rw [runLoop_eq]
    exact processRows_sheet_len env _ _ _
  have hlen1 : (pySliceFrom w.sheet (load_progress w.progress)).length =
      w.sheet.length - (load_progress w.progress).toNat := pySliceFrom_length hK
  have hw1sheet : (mainRun env w).world.sheet = (runLoop env w).1.sheet := by rw [hworld]
  have hw1prog : (mainRun env w).world.progress = (runLoop env w).1.progress := by rw [hworld]
  have hKnat : (((load_progress w.progress).toNat : Int)) = load_progress w.progress :=
    Int.toNat_of_nonneg hK
  have key : ((mainRun env w).world.sheet.length : Int) ≤ load_progress (mainRun env w).world.progress ∧
      0 ≤ load_progress (mainRun env w).world.progress := by
    rw [hw1sheet, hw1prog, hlen]
    rcases hprog with ⟨hm0, hpr⟩ | ⟨hmpos, hpr⟩
    · rw [hpr]
      show (w.sheet.length : Int) ≤ load_progress w.progress ∧ 0 ≤ load_progress w.progress
      refine ⟨by omega, hK⟩
    · rw [hpr, load_progress_some]
      refine ⟨by omega, by omega⟩
  have hslice : pySliceFrom (mainRun env w).world.sheet
      (load_progress (mainRun env w).world.progress) = [] := pySliceFrom_nil key.2 key.1
  have hrl : runLoop env (mainRun env w).world =
      ({ stats := Stats.start, sheet := (mainRun env w).world.sheet,
         progress := (mainRun env w).world.progress,
         writes := [], saves := [], scanned := [] }, none) := by
    rw [runLoop_eq, hslice]
    rfl
  obtain ⟨hstats2, _, hwrites2, _, _, hcrash2, _⟩ := mainRun_open_spec env (mainRun env w).world h
  refine ⟨?_, ?_, ?_⟩
  · rw [hstats2, hrl]
    rfl
  · rw [hwrites2, hrl]
  · rw [hcrash2, hrl]

/-- Witness for C5 on a completing three-row run. -/
theorem C5_idempotent_witness :
    okEnv.openErr = none ∧
    0 ≤ load_progress crashWorld.progress ∧
    (mainRun okEnv crashWorld).crashed = none ∧
    ((mainRun okEnv (mainRun okEnv crashWorld).world).stats.successful = 0 ∧
     (mainRun okEnv (mainRun okEnv crashWorld).world).writes = [] ∧
     (mainRun okEnv (mainRun okEnv crashWorld).world).crashed = none) :=
  ⟨rfl, by decide, by decide, C5_idempotent okEnv crashWorld rfl (by decide) (by decide)⟩

/-- Error entries built by `recordFailure` have the `"Row <n>: <detail>"`
shape. -/
theorem isRowMsg_mk (n : Int) (d : String) :
    isRowMsg ("Row " ++ toString n ++ ": " ++ d) := ⟨n, d, rfl⟩

/-- Statistics effect of one pair in a non-raising step, in terms of
the pure outcome `pairStatus`. -/
theorem processPair_ok_stats (env : Env) (row : List String) (idx : Int) (p : Nat × Nat)
    (st : PairSt) (h : (processPair env row idx p st).2 = none) :
    ∃ L : List String,
      (processPair env row idx p st).1.stats.total_processed =
        st.stats.total_processed + (statusDelta (pairStatus env row idx p)).1 ∧
      (processPair env row idx p st).1.stats.successful =
        st.stats.successful + (statusDelta (pairStatus env row idx p)).2.1 ∧
      (processPair env row idx p st).1.stats.failed =
        st.stats.failed + (statusDelta (pairStatus env row idx p)).2.2 ∧
      (processPair env row idx p st).1.stats.errors = st.stats.errors ++ L ∧
      L.length = (statusDelta (pairStatus env row idx p)).2.2 ∧
      (∀ msg ∈ L, isRowMsg msg) ∧
      (processPair env row idx p st).1.stats.last_row = st.stats.last_row := by
  cases hf : env.formula idx p.1 with
  | error e => simp [processPair, hf] at h
  | ok fOpt =>
    cases fOpt with
    | none =>
      refine ⟨[], ?_, ?_, ?_, ?_, ?_, ?_, ?_⟩ <;>
        simp [processPair, pairStatus, hf, statusDelta]
    | some f =>
      by_cases hc : pendingCond f (cellAt row (p.2 - 1)) = true
      · cases he : extractFileId f with
        | none =>
          refine ⟨["Row " ++ toString idx ++ ": " ++ "Could not parse File ID from cell formula"],
            ?_, ?_, ?_, ?_, ?_, ?_, ?_⟩ <;>
            first
            | (simp [processPair, pairStatus, hf, hc, he, statusDelta, recordFailure]; done)
            | (intro msg hmsg
               simp only [List.mem_singleton] at hmsg
               subst hmsg
               exact isRowMsg_mk idx _)
        | some fid =>
          cases hf2 : env.fetch fid with
          | error e =>
            refine ⟨["Row " ++ toString idx ++ ": " ++ e], ?_, ?_, ?_, ?_, ?_, ?_, ?_⟩ <;>
              first
              | (simp [processPair, pairStatus, hf, hc, he, hf2, statusDelta, recordFailure]; done)
              | (intro msg hmsg
                 simp only [List.mem_singleton] at hmsg
                 subst hmsg
                 exact isRowMsg_mk idx _)
          | ok b =>
            cases ht : env.transcribe b with
            | error e =>
              refine ⟨["Row " ++ toString idx ++ ": " ++ e], ?_, ?_, ?_, ?_, ?_, ?_, ?_⟩ <;>
                first
                | (simp [processPair, pairStatus, hf, hc, he, hf2, ht, statusDelta, recordFailure]; done)
                | (intro msg hmsg
                   simp only [List.mem_singleton] at hmsg
                   subst hmsg
                   exact isRowMsg_mk idx _)
            | ok tx =>
              cases hu : env.updateErr idx p.2 tx with
              | some e =>
                refine ⟨["Row " ++ toString idx ++ ": " ++ e], ?_, ?_, ?_, ?_, ?_, ?_, ?_⟩ <;>
                  first
                  | (simp [processPair, pairStatus, hf, hc, he, hf2, ht, hu, statusDelta, recordFailure]; done)
                  | (intro msg hmsg
                     simp only [List.mem_singleton] at hmsg
                     subst hmsg
                     exact isRowMsg_mk idx _)
              | none =>
                refine ⟨[], ?_, ?_, ?_, ?_, ?_, ?_, ?_⟩ <;>
                  simp [processPair, pairStatus, hf, hc, he, hf2, ht, hu, statusDelta]
      · refine ⟨[], ?_, ?_, ?_, ?_, ?_, ?_, ?_⟩ <;>
          simp [processPair, pairStatus, hf, hc, statusDelta]

/-- Statistics effect of one row's pair loop in a non-raising step, in
terms of the pure counter triple `rowDelta`. -/
theorem processPairs_ok_stats (env : Env) (row : List String) (idx : Int) :
    ∀ (ps : List (Nat × Nat)) (st : PairSt),
      (processPairs env row idx ps st).2 = none →
      ∃ L : List String,
        (processPairs env row idx ps st).1.stats.total_processed =
          st.stats.total_processed + (rowDelta env row idx ps).1 ∧
        (processPairs env row idx ps st).1.stats.successful =
          st.stats.successful + (rowDelta env row idx ps).2.1 ∧
        (processPairs env row idx ps st).1.stats.failed =
          st.stats.failed + (rowDelta env row idx ps).2.2 ∧
        (processPairs env row idx ps st).1.stats.errors = st.stats.errors ++ L ∧
        L.length = (rowDelta env row idx ps).2.2 ∧
        (∀ msg ∈ L, isRowMsg msg) ∧
        (processPairs env row idx ps st).1.stats.last_row = st.stats.last_row := by
  intro ps
  induction ps with
  | nil =>
    intro st _
    refine ⟨[], ?_, ?_, ?_, ?_, ?_, ?_, ?_⟩ <;> simp [processPairs, rowDelta]
  | cons p ps ih =>
    intro st hnone
    cases hp : processPair env row idx p st with
    | mk st1 c =>
      cases c with
      | some e =>
        simp only [processPairs, hp] at hnone
        simp at hnone
      | none =>
        have hcons : processPairs env row idx (p :: ps) st = processPairs env row idx ps st1 := by
          simp only [processPairs, hp]
        rw [hcons] at hnone ⊢
        obtain ⟨L1, h1t, h1s, h1f, h1e, h1l, h1m, h1r⟩ :=
          processPair_ok_stats env row idx p st (by rw [hp])
        have h1t' : st1.stats.total_processed =
            st.stats.total_processed + (statusDelta (pairStatus env row idx p)).1 := by
          simpa [hp] using h1t
        have h1s' : st1.stats.successful =
            st.stats.successful + (statusDelta (pairStatus env row idx p)).2.1 := by
          simpa [hp] using h1s
        have h1f' : st1.stats.failed =
            st.stats.failed + (statusDelta (pairStatus env row idx p)).2.2 := by
          simpa [hp] using h1f
        have h1e' : st1.stats.errors = st.stats.errors ++ L1 := by
          simpa [hp] using h1e
        have h1r' : st1.stats.last_row = st.stats.last_row := by
          simpa [hp] using h1r
        obtain ⟨L2, h2t, h2s, h2f, h2e, h2l, h2m, h2r⟩ := ih st1 hnone
        refine ⟨L1 ++ L2, ?_, ?_, ?_, ?_, ?_, ?_, ?_⟩
        · rw [h2t, h1t']
          simp [rowDelta]
          omega
        · rw [h2s, h1s']
          simp [rowDelta]
          omega
        · rw [h2f, h1f']
          simp [rowDelta]
          omega
        · rw [h2e, h1e', List.append_assoc]
        · simp [rowDelta, List.length_append, h1l, h2l]
        · intro msg hmsg
          rcases List.mem_append.mp hmsg with hin | hin
          · exact h1m msg hin
          · exact h2m msg hin
        · rw [h2r, h1r']

/-- Statistics effect of the whole row loop in a non-raising run, in
terms of the pure counter triple `sheetDelta`. -/
theorem processRows_ok_stats (env : Env) :
    ∀ (rows : List (List String)) (idx : Int) (st : LoopSt),
      (processRows env rows idx st).2 = none →
      ∃ L : List String,
        (processRows env rows idx st).1.stats.total_processed =
          st.stats.total_processed + (sheetDelta env rows idx).1 ∧
        (processRows env rows idx st).1.stats.successful =
          st.stats.successful + (sheetDelta env rows idx).2.1 ∧
        (processRows env rows idx st).1.stats.failed =
          st.stats.failed + (sheetDelta env rows idx).2.2 ∧
        (processRows env rows idx st).1.stats.errors = st.stats.errors ++ L ∧
        L.length = (sheetDelta env rows idx).2.2 ∧
        (∀ msg ∈ L, isRowMsg msg) := by
  intro rows
  induction rows with
  | nil =>
    intro idx st _
    refine ⟨[], ?_, ?_, ?_, ?_, ?_, ?_⟩ <;> simp [processRows, sheetDelta]
  | cons row rows ih =>
    intro idx st hnone
    cases hp : processPairs env row idx env.colMap
        { stats := { st.stats with last_row := idx }, sheet := st.sheet, writes := st.writes } with
    | mk pst c =>
      cases c with
      | some e =>
        simp only [processRows, hp] at hnone
        simp at hnone
      | none =>
        have hstep : processRows env (row :: rows) idx st =
            processRows env rows (idx + 1)
              { stats := pst.stats, sheet := pst.sheet, writes := pst.writes,
                progress := save_progress idx, saves := st.saves ++ [idx],
                scanned := st.scanned ++ [idx] } := by
          simp only [processRows, hp]
        rw [hstep] at hnone ⊢
        obtain ⟨L1, h1t, h1s, h1f, h1e, h1l, h1m, _⟩ :=
          processPairs_ok_stats env row idx env.colMap
            { stats := { st.stats with last_row := idx }, sheet := st.sheet, writes := st.writes }
            (by rw [hp])
        have h1t' : pst.stats.total_processed =
            st.stats.total_processed + (rowDelta env row idx env.colMap).1 := by
          simpa [hp] using h1t
        have h1s' : pst.stats.successful =
            st.stats.successful + (rowDelta env row idx env.colMap).2.1 := by
          simpa [hp] using h1s
        have h1f' : pst.stats.failed =
            st.stats.failed + (rowDelta env row idx env.colMap).2.2 := by
          simpa [hp] using h1f
        have h1e' : pst.stats.errors = st.stats.errors ++ L1 := by
          simpa [hp] using h1e
        obtain ⟨L2, h2t, h2s, h2f, h2e, h2l, h2m⟩ := ih (idx + 1) _ hnone
        refine ⟨L1 ++ L2, ?_, ?_, ?_, ?_, ?_, ?_⟩
        · rw [h2t]
          simp only [h1t', sheetDelta]
          omega
        · rw [h2s]
          simp only [h1s', sheetDelta]
          omega
        · rw [h2f]
          simp only [h1f', sheetDelta]
          omega
        · rw [h2e]
          simp only [h1e', List.append_assoc]
        · simp [sheetDelta, List.length_append, h1l, h2l]
        · intro msg hmsg
          rcases List.mem_append.mp hmsg with hin | hin
          · exact h1m msg hin
          · exact h2m msg hin

/-- In every pair outcome the pending count is the sum of the success
and failure counts. -/
theorem statusDelta_split (o : Option Bool) :
    (statusDelta o).1 = (statusDelta o).2.1 + (statusDelta o).2.2 := by
  cases o with
  | none => rfl
  | some b => cases b <;> rfl

/-- In every row the pending count is the sum of the success and
failure counts. -/
theorem rowDelta_split (env : Env) (row : List String) (idx : Int) :
    ∀ ps : List (Nat × Nat),
      (rowDelta env row idx ps).1 = (rowDelta env row idx ps).2.1 + (rowDelta env row idx ps).2.2 := by
  intro ps
  induction ps with
  | nil => rfl
  | cons p ps ih =>
    simp only [rowDelta]
    have := statusDelta_split (pairStatus env row idx p)
    omega

/-- Over any slice the pending count is the sum of the success and
failure counts. -/
theorem sheetDelta_split (env : Env) :
    ∀ (rows : List (List String)) (idx : Int),
      (sheetDelta env rows idx).1 = (sheetDelta env rows idx).2.1 + (sheetDelta env rows idx).2.2 := by
  intro rows
  induction rows with
  | nil => intro idx; rfl
  | cons row rows ih =>
    intro idx
    simp only [sheetDelta]
    have h1 := rowDelta_split env row idx env.colMap
    have h2 := ih (idx + 1)
    omega

/-- Claim C7 — confirmed.  Statistics accuracy: a run that opens its
sheet and raises no exception ends with `total_processed` equal to the
number `N` of pending cells among the scanned rows, `successful` equal
to the number `S` of pending cells whose fetch-transcribe-write sequence
succeeds, `failed` equal to the number `F` of pending cells failing in
parse, fetch, transcription, or write, with `N = S + F`, exactly `F`
error entries, each of the form `"Row <n>: <detail>"`. -/
theorem C7_stats (env : Env) (w : World) (h : env.openErr = none)
    (hnc : (mainRun env w).crashed = none) :
    (mainRun env w).stats.total_processed =
      (sheetDelta env (pySliceFrom w.sheet (load_progress w.progress)) (load_progress w.progress + 1)).1 ∧
    (mainRun env w).stats.successful =
      (sheetDelta env (pySliceFrom w.sheet (load_progress w.progress)) (load_progress w.progress + 1)).2.1 ∧
    (mainRun env w).stats.failed =
      (sheetDelta env (pySliceFrom w.sheet (load_progress w.progress)) (load_progress w.progress + 1)).2.2 ∧
    (sheetDelta env (pySliceFrom w.sheet (load_progress w.progress)) (load_progress w.progress + 1)).1 =
      (sheetDelta env (pySliceFrom w.sheet (load_progress w.progress)) (load_progress w.progress + 1)).2.1 +
      (sheetDelta env (pySliceFrom w.sheet (load_progress w.progress)) (load_progress w.progress + 1)).2.2 ∧
    (mainRun env w).stats.errors.length =
      (sheetDelta env (pySliceFrom w.sheet (load_progress w.progress)) (load_progress w.progress + 1)).2.2 ∧
    (∀ e ∈ (mainRun env w).stats.errors, isRowMsg e) := by
  obtain ⟨hstats, _, _, _, _, hcrash, _⟩ := mainRun_open_spec env w h
  have hnc2 : (runLoop env w).2 = none := by rw [← hcrash]; exact hnc
  obtain ⟨L, ht, hs, hf2, he, hl, hm2⟩ := processRows_ok_stats env
    (pySliceFrom w.sheet (load_progress w.progress)) (load_progress w.progress + 1)
    { stats := Stats.start, sheet := w.sheet, progress := w.progress,
      writes := [], saves := [], scanned := [] }
    (by rw [← runLoop_eq env w]; exact hnc2)
  rw [← runLoop_eq env w] at ht hs hf2 he
  have herr : (mainRun env w).stats.errors = L := by
    rw [hstats, he]
    rfl
  refine ⟨?_, ?_, ?_, sheetDelta_split env _ _, ?_, ?_⟩
  · rw [hstats, ht]
    simp [Stats.start]
  · rw [hstats, hs]
    simp [Stats.start]
  · rw [hstats, hf2]
    simp [Stats.start]
  · rw [herr, hl]
  · intro e hin
    rw [herr] at hin
    exact hm2 e hin

/-- Witness for C7: one data row with one pending success and one
pending parse failure. -/
theorem C7_stats_witness :
    mixEnv.openErr = none ∧
    (mainRun mixEnv mixWorld).crashed = none ∧
    ((mainRun mixEnv mixWorld).stats.total_processed =
       (sheetDelta mixEnv (pySliceFrom mixWorld.sheet (load_progress mixWorld.progress)) (load_progress mixWorld.progress + 1)).1 ∧
     (mainRun mixEnv mixWorld).stats.successful =
       (sheetDelta mixEnv (pySliceFrom mixWorld.sheet (load_progress mixWorld.progress)) (load_progress mixWorld.progress + 1)).2.1 ∧
     (mainRun mixEnv mixWorld).stats.failed =
       (sheetDelta mixEnv (pySliceFrom mixWorld.sheet (load_progress mixWorld.progress)) (load_progress mixWorld.progress + 1)).2.2 ∧
     (sheetDelta mixEnv (pySliceFrom mixWorld.sheet (load_progress mixWorld.progress)) (load_progress mixWorld.progress + 1)).1 =
       (sheetDelta mixEnv (pySliceFrom mixWorld.sheet (load_progress mixWorld.progress)) (load_progress mixWorld.progress + 1)).2.1 +
       (sheetDelta mixEnv (pySliceFrom mixWorld.sheet (load_progress mixWorld.progress)) (load_progress mixWorld.progress + 1)).2.2 ∧
     (mainRun mixEnv mixWorld).stats.errors.length =
       (sheetDelta mixEnv (pySliceFrom mixWorld.sheet (load_progress mixWorld.progress)) (load_progress mixWorld.progress + 1)).2.2 ∧
     (∀ e ∈ (mainRun mixEnv mixWorld).stats.errors, isRowMsg e)) :=
  ⟨rfl, by decide, C7_stats mixEnv mixWorld rfl (by decide)⟩

end Transcribe
